import Mathlib

attribute [local semireducible] Rat.mul Rat.inv Rat.add Rat.sub Rat.ofScientific

/-!
Verification of the frame-processing pipeline of
src/src/components/yolo-detector.tsx: the preprocessor (preprocessImage,
lines 113-131), the output decoder (processDetections, lines 133-182) and
the fps bookkeeping of the detection loop (startDetection, lines 218-235,
and detectFrame, line 207).

Modelling conventions.  The 32-bit floats of the source tensors are
modelled by exact rationals; every property proved here is an order or
equality property preserved by exact arithmetic, and every refuting input
uses values that are exactly representable in 32-bit floats.  A JavaScript
read past the end of a typed array yields a value that compares as false
against any number; it is modelled by a defaulted read of 0, which the
score scan treats identically because its running maximum never goes
below 0.  JavaScript destructuring of a too-short dims array yields a
bound that stops the loops immediately; it is modelled by a defaulted
read of 0.
-/

/-- Detection record produced by the decoder (yolo-detector.tsx, lines 5-10);
bbox is the corner-form box (x1, y1, x2, y2). -/
structure Detection where
  classId : ℕ
  score : ℚ
  bbox : ℚ × ℚ × ℚ × ℚ
  className : String
  deriving DecidableEq

/-- Raw inference output as the decoder sees it: the two fields it reads
from the onnxruntime tensor, output.dims and output.data (lines 135-136). -/
structure Tensor where
  dims : List ℕ
  data : List ℚ
  deriving DecidableEq

/-- Class label table (line 12). -/
def COCO_CLASSES : List String :=
  ["angry", "fear", "disgust", "happy", "sad", "neutral", "surprise"]

/-- Fixed model input side (line 19). -/
def IMG_SIZE : ℕ := 128

/-- Raw class score of candidate column i at class row j:
data[(4 + j) * numDetections + i] (line 156). -/
def scoreAt (data : List ℚ) (numDetections i j : ℕ) : ℚ :=
  data.getD ((4 + j) * numDetections + i) 0

/-- One iteration of the inner score scan (lines 155-161): replace the
running (maxScore, maxClassId) pair when the score strictly exceeds it. -/
def scanStep (data : List ℚ) (numDetections i : ℕ) (acc : ℚ × ℕ) (j : ℕ) : ℚ × ℕ :=
  if acc.1 < scoreAt data numDetections i j then (scoreAt data numDetections i j, j) else acc

/-- The full score scan of candidate column i over the numClasses class
rows, started from maxScore = 0, maxClassId = 0 (lines 152-161). -/
def classMax (data : List ℚ) (numDetections i numClasses : ℕ) : ℚ × ℕ :=
  (List.range numClasses).foldl (scanStep data numDetections i) (0, 0)

/-- Corner-coordinate clamp Math.max(0, Math.min(1, v)) (lines 166-169). -/
def clampCoord (v : ℚ) : ℚ :=
  max 0 (min 1 v)

/-- Label lookup with fallback (line 175): an out-of-range index or an
empty-string entry is falsy in JavaScript and selects the fallback. -/
def classNameOf (table : List String) (k : ℕ) : String :=
  match table.get? k with
  | some nm => if nm = "" then ("Class " ++ toString k) else nm
  | none => ("Class " ++ toString k)

/-- Decode of one candidate column i (loop body, lines 146-177): read the
center/size box from rows 0-3, scan the class rows for the winning score,
clamp it into [0, 1], and accept the candidate when the clamped score
strictly exceeds the threshold and the winning class index is inside the
label table. -/
def decodeCandidate (data : List ℚ) (numDetections numClasses : ℕ)
    (confidenceThreshold : ℚ) (classTable : List String) (i : ℕ) : Option Detection :=
  let xCenter := data.getD i 0
  let yCenter := data.getD (numDetections + i) 0
  let width := data.getD (2 * numDetections + i) 0
  let height := data.getD (3 * numDetections + i) 0
  let m := classMax data numDetections i numClasses
  let normalizedScore := min (max m.1 0) 1
  if normalizedScore > confidenceThreshold ∧ m.2 < classTable.length then
    some ⟨m.2, normalizedScore,
      (clampCoord ((xCenter - width / 2) / (IMG_SIZE : ℚ)),
       clampCoord ((yCenter - height / 2) / (IMG_SIZE : ℚ)),
       clampCoord ((xCenter + width / 2) / (IMG_SIZE : ℚ)),
       clampCoord ((yCenter + height / 2) / (IMG_SIZE : ℚ))),
      classNameOf classTable m.2⟩
  else
    none

/-- The decoder processDetections (lines 133-182): destructure dims as
[_, numOutputs, numDetections], derive numClasses = numOutputs - 4, and
collect the accepted candidates in candidate-index order.  The confidence
threshold and the label table are the two pieces of configuration the
source reads from component state and module scope. -/
def processDetections (output : Tensor) (confidenceThreshold : ℚ)
    (classTable : List String) : List Detection :=
  let numOutputs := output.dims.getD 1 0
  let numDetections := output.dims.getD 2 0
  let numClasses := numOutputs - 4
  (List.range numDetections).filterMap
    (decodeCandidate output.data numDetections numClasses confidenceThreshold classTable)

/-- One iteration of the preprocessing loop (lines 124-128): write the
normalized red, green and blue bytes of pixel i into the three channel
planes of the output buffer. -/
def planarStep (S : ℕ) (pixels : List ℕ) (input : List ℚ) (i : ℕ) : List ℚ :=
  ((input.set i ((pixels.getD (i * 4) 0 : ℚ) / 255)).set
      (S * S + i) ((pixels.getD (i * 4 + 1) 0 : ℚ) / 255)).set
    (2 * S * S + i) ((pixels.getD (i * 4 + 2) 0 : ℚ) / 255)

/-- The planar re-layout of preprocessImage (lines 123-130): allocate a
zero buffer of length 3 * S * S and run the loop over every pixel index.
The source fixes S = IMG_SIZE; the spec contract preprocess(frame,
targetSize) carries the side as a parameter, so it is a parameter here. -/
def preprocessPixels (S : ℕ) (pixels : List ℕ) : List ℚ :=
  (List.range (S * S)).foldl (planarStep S pixels) (List.replicate (3 * S * S) 0)

/-- A source video frame at the decoder boundary: a resolution plus an
RGBA pixel function. -/
structure VideoFrame where
  width : ℕ
  height : ℕ
  pixel : ℕ → ℕ → ℕ × ℕ × ℕ × ℕ

/-- Modelled from the spec: the browser canvas resample of lines 114-121
(drawImage into an S-by-S canvas followed by getImageData) is outside the
repository; per section 4.1 it produces the S-by-S resampled frame as an
interleaved R, G, B, A byte buffer, row-major, 4 bytes per pixel. -/
def resampleToCanvas (S : ℕ) (video : VideoFrame) : List ℕ :=
  (List.range (S * S)).foldl
    (fun buf i =>
      let p := video.pixel (i % S * video.width / S) (i / S * video.height / S)
      buf ++ [p.1, p.2.1, p.2.2.1, p.2.2.2])
    []

/-- preprocessImage (lines 113-131): resample the frame to the fixed
square side and re-lay it into normalized channel planes. -/
def preprocessImage (video : VideoFrame) : List ℚ :=
  preprocessPixels IMG_SIZE (resampleToCanvas IMG_SIZE video)

/-- The two counters of the detection loop: frameCountRef (line 36) and
the published fps value (line 27). -/
structure LoopState where
  frameCount : ℕ
  fps : ℕ
  deriving DecidableEq

/-- The interval period passed to window.setInterval in startDetection
(line 233), in milliseconds. -/
def tickPeriodMs : ℕ := 1

/-- The interval callback of startDetection (lines 228-233): publish the
frame counter as fps, then reset the counter. -/
def fpsTick (s : LoopState) : LoopState :=
  ⟨0, s.frameCount⟩

/-- k completed detection cycles, each incrementing frameCountRef
(line 207). -/
def completeCycles (k : ℕ) (s : LoopState) : LoopState :=
  ⟨s.frameCount + k, s.fps⟩

/-- Run the loop from a fresh start (frameCountRef reset, line 226) over
one interval tick per entry, the entry giving how many cycles completed
during that tick period. -/
def runTicks (completionsPerTick : List ℕ) : LoopState :=
  completionsPerTick.foldl (fun s k => fpsTick (completeCycles k s)) ⟨0, 0⟩

/-! ### Generic list helpers -/

lemma getD_default_of_le {α : Type} (d : α) :
    ∀ (l : List α) (k : ℕ), l.length ≤ k → l.getD k d = d := by
  intro l
  induction l with
  | nil => intro k _; cases k <;> rfl
  | cons a l ih =>
      intro k hk
      cases k with
      | zero => simp at hk
      | succ k => exact ih k (by simpa using hk)

lemma getD_set_self {α : Type} (d : α) :
    ∀ (l : List α) (i : ℕ) (a : α), i < l.length → (l.set i a).getD i d = a := by
  intro l
  induction l with
  | nil => intro i a h; simp at h
  | cons x l ih =>
      intro i a h
      cases i with
      | zero => rfl
      | succ i => exact ih i a (by simpa using h)

lemma getD_set_ne {α : Type} (d : α) :
    ∀ (l : List α) (i j : ℕ) (a : α), i ≠ j → (l.set i a).getD j d = l.getD j d := by
  intro l
  induction l with
  | nil => intro i j a _; rfl
  | cons x l ih =>
      intro i j a hne
      cases i with
      | zero =>
          cases j with
          | zero => exact absurd rfl hne
          | succ j => rfl
      | succ i =>
          cases j with
          | zero => rfl
          | succ j => exact ih i j a (fun hc => hne (congrArg Nat.succ hc))

lemma getD_zero_of_all_zero :
    ∀ (l : List ℚ) (k : ℕ), (∀ x ∈ l, x = 0) → l.getD k 0 = 0 := by
  intro l
  induction l with
  | nil => intro k _; cases k <;> rfl
  | cons a l ih =>
      intro k hz
      cases k with
      | zero => exact hz a (List.mem_cons_self a l)
      | succ k => exact ih k (fun x hx => hz x (List.mem_cons_of_mem a hx))

lemma length_filterMap_mono {α β : Type} (l : List α) (f g : α → Option β)
    (h : ∀ a ∈ l, (f a).isSome → (g a).isSome) :
    (l.filterMap f).length ≤ (l.filterMap g).length := by
  induction l with
  | nil => exact Nat.le_refl 0
  | cons a l ih =>
      have ih' := ih (fun x hx => h x (List.mem_cons_of_mem a hx))
      have ha := h a (List.mem_cons_self a l)
      cases hf : f a with
      | none =>
          cases hg : g a with
          | none =>
              rw [List.filterMap_cons_none hf, List.filterMap_cons_none hg]
              exact ih'
          | some b =>
              rw [List.filterMap_cons_none hf, List.filterMap_cons_some hg]
              exact Nat.le_succ_of_le ih'
      | some b =>
          have hgs : (g a).isSome := ha (by rw [hf]; rfl)
          cases hg : g a with
          | none => rw [hg] at hgs; simp at hgs
          | some c =>
              rw [List.filterMap_cons_some hf, List.filterMap_cons_some hg]
              exact Nat.succ_le_succ ih'

/-! ### Clamp helpers -/

lemma clampCoord_nonneg (v : ℚ) : 0 ≤ clampCoord v :=
  le_max_left 0 (min 1 v)

lemma clampCoord_le_one (v : ℚ) : clampCoord v ≤ 1 :=
  max_le (by norm_num) (min_le_left 1 v)

lemma clampCoord_mono {a b : ℚ} (h : a ≤ b) : clampCoord a ≤ clampCoord b :=
  max_le_max (le_refl 0) (min_le_min (le_refl 1) h)

/-! ### Score-scan invariants -/

lemma classMax_zero (d : List ℚ) (nd i : ℕ) : classMax d nd i 0 = (0, 0) := by
  unfold classMax
  rw [List.range_zero]
  rfl

lemma classMax_succ (d : List ℚ) (nd i n : ℕ) :
    classMax d nd i (n + 1) = scanStep d nd i (classMax d nd i n) n := by
  unfold classMax
  rw [List.range_succ, List.foldl_append, List.foldl_cons, List.foldl_nil]

lemma classMax_fst_nonneg (d : List ℚ) (nd i : ℕ) :
    ∀ n, 0 ≤ (classMax d nd i n).1 := by
  intro n
  induction n with
  | zero => rw [classMax_zero]
  | succ n ih =>
      rw [classMax_succ]
      unfold scanStep
      split
      · exact le_of_lt (lt_of_le_of_lt ih (by assumption))
      · exact ih

lemma classMax_le (d : List ℚ) (nd i : ℕ) :
    ∀ n, ∀ j < n, scoreAt d nd i j ≤ (classMax d nd i n).1 := by
  intro n
  induction n with
  | zero => intro j hj; exact absurd hj (Nat.not_lt_zero j)
  | succ n ih =>
      intro j hj
      rw [classMax_succ]
      unfold scanStep
      rcases Nat.lt_succ_iff_lt_or_eq.mp hj with h | h
      · have hle := ih j h
        split
        · exact le_of_lt (lt_of_le_of_lt hle (by assumption))
        · exact hle
      · subst h
        split
        · exact le_refl _
        · exact le_of_not_lt (by assumption)

lemma classMax_attain (d : List ℚ) (nd i : ℕ) :
    ∀ n, 0 < (classMax d nd i n).1 →
      (classMax d nd i n).2 < n
      ∧ scoreAt d nd i (classMax d nd i n).2 = (classMax d nd i n).1 := by
  intro n
  induction n with
  | zero => rw [classMax_zero]; intro h; exact absurd h (lt_irrefl 0)
  | succ n ih =>
      rw [classMax_succ]
      unfold scanStep
      split
      · intro _
        exact ⟨Nat.lt_succ_self n, rfl⟩
      · intro h
        obtain ⟨h1, h2⟩ := ih h
        exact ⟨Nat.lt_succ_of_lt h1, h2⟩

lemma classMax_earlier_lt (d : List ℚ) (nd i : ℕ) :
    ∀ n, ∀ j < (classMax d nd i n).2, scoreAt d nd i j < (classMax d nd i n).1 := by
  intro n
  induction n with
  | zero =>
      rw [classMax_zero]
      intro j hj
      exact absurd hj (Nat.not_lt_zero j)
  | succ n ih =>
      rw [classMax_succ]
      unfold scanStep
      split
      · intro j hj
        exact lt_of_le_of_lt (classMax_le d nd i n j hj) (by assumption)
      · exact ih

lemma classMax_of_nonpos (d : List ℚ) (nd i : ℕ) :
    ∀ n, (∀ j < n, scoreAt d nd i j ≤ 0) → classMax d nd i n = (0, 0) := by
  intro n
  induction n with
  | zero => intro _; exact classMax_zero d nd i
  | succ n ih =>
      intro h
      rw [classMax_succ, ih (fun j hj => h j (Nat.lt_succ_of_lt hj))]
      unfold scanStep
      rw [if_neg]
      exact not_lt.mpr (h n (Nat.lt_succ_self n))

lemma classMax_snd_cases (d : List ℚ) (nd i : ℕ) :
    ∀ n, (classMax d nd i n).2 = 0 ∨ (classMax d nd i n).2 < n := by
  intro n
  induction n with
  | zero => rw [classMax_zero]; exact Or.inl rfl
  | succ n ih =>
      rw [classMax_succ]
      unfold scanStep
      split
      · exact Or.inr (Nat.lt_succ_self n)
      · rcases ih with h | h
        · exact Or.inl h
        · exact Or.inr (Nat.lt_succ_of_lt h)

lemma classMax_snd_lt (d : List ℚ) (nd i n : ℕ) (hn : 0 < n) :
    (classMax d nd i n).2 < n := by
  rcases classMax_snd_cases d nd i n with h | h
  · rw [h]; exact hn
  · exact h

/-! ### Decoder helpers -/

lemma decodeCandidate_some_elim (d : List ℚ) (nd nc : ℕ) (t : ℚ) (table : List String)
    (i : ℕ) (det : Detection) (h : decodeCandidate d nd nc t table i = some det) :
    t < det.score
    ∧ det.score = min (max (classMax d nd i nc).1 0) 1
    ∧ det.classId = (classMax d nd i nc).2
    ∧ (classMax d nd i nc).2 < table.length
    ∧ det.bbox = (clampCoord ((d.getD i 0 - d.getD (2 * nd + i) 0 / 2) / (IMG_SIZE : ℚ)),
        clampCoord ((d.getD (nd + i) 0 - d.getD (3 * nd + i) 0 / 2) / (IMG_SIZE : ℚ)),
        clampCoord ((d.getD i 0 + d.getD (2 * nd + i) 0 / 2) / (IMG_SIZE : ℚ)),
        clampCoord ((d.getD (nd + i) 0 + d.getD (3 * nd + i) 0 / 2) / (IMG_SIZE : ℚ))) := by
  simp only [decodeCandidate] at h
  split at h
  · rename_i hc
    obtain ⟨h1, h2⟩ := hc
    injection h with h
    subst h
    exact ⟨h1, rfl, rfl, h2, rfl⟩
  · exact absurd h (by simp)

lemma decodeCandidate_isSome_mono (d : List ℚ) (nd nc : ℕ) (t1 t2 : ℚ)
    (table : List String) (i : ℕ) (h : t1 ≤ t2) :
    (decodeCandidate d nd nc t2 table i).isSome →
      (decodeCandidate d nd nc t1 table i).isSome := by
  intro h2
  simp only [decodeCandidate] at h2 ⊢
  split at h2
  · rename_i hc
    rw [if_pos ⟨lt_of_le_of_lt h hc.1, hc.2⟩]
    rfl
  · simp at h2

/-! ### Preprocessor helpers -/

lemma foldl_planarStep_length (S : ℕ) (p : List ℕ) :
    ∀ (l : List ℕ) (input : List ℚ),
      (l.foldl (planarStep S p) input).length = input.length := by
  intro l
  induction l with
  | nil => intro input; rfl
  | cons a l ih =>
      intro input
      rw [List.foldl_cons, ih]
      simp [planarStep]

lemma preprocessPixels_length (S : ℕ) (p : List ℕ) :
    (preprocessPixels S p).length = 3 * S * S := by
  unfold preprocessPixels
  rw [foldl_planarStep_length, List.length_replicate]

lemma preprocess_partial_get (S : ℕ) (p : List ℕ) :
    ∀ n, n ≤ S * S → ∀ i < n,
      (((List.range n).foldl (planarStep S p) (List.replicate (3 * S * S) 0)).getD i 0
          = (p.getD (i * 4) 0 : ℚ) / 255)
      ∧ (((List.range n).foldl (planarStep S p) (List.replicate (3 * S * S) 0)).getD
            (S * S + i) 0
          = (p.getD (i * 4 + 1) 0 : ℚ) / 255)
      ∧ (((List.range n).foldl (planarStep S p) (List.replicate (3 * S * S) 0)).getD
            (2 * S * S + i) 0
          = (p.getD (i * 4 + 2) 0 : ℚ) / 255) := by
  intro n
  induction n with
  | zero => intro _ i hi; exact absurd hi (Nat.not_lt_zero i)
  | succ n ih =>
      intro hn i hi
      have hnS : n < S * S := hn
      have e2 : 2 * S * S = S * S + S * S := by ring
      have e3 : 3 * S * S = S * S + S * S + S * S := by ring
      have hlen : ((List.range n).foldl (planarStep S p)
          (List.replicate (3 * S * S) 0)).length = 3 * S * S := by
        rw [foldl_planarStep_length, List.length_replicate]
      rw [List.range_succ, List.foldl_append, List.foldl_cons, List.foldl_nil]
      rcases Nat.lt_succ_iff_lt_or_eq.mp hi with hlt | heq
      · obtain ⟨e1, e2, e3⟩ := ih (Nat.le_of_succ_le hn) i hlt
        simp only [planarStep]
        refine ⟨?_, ?_, ?_⟩
        · rw [getD_set_ne 0 _ _ _ _ (by omega), getD_set_ne 0 _ _ _ _ (by omega),
            getD_set_ne 0 _ _ _ _ (by omega)]
          exact e1
        · rw [getD_set_ne 0 _ _ _ _ (by omega), getD_set_ne 0 _ _ _ _ (by omega),
            getD_set_ne 0 _ _ _ _ (by omega)]
          exact e2
        · rw [getD_set_ne 0 _ _ _ _ (by omega), getD_set_ne 0 _ _ _ _ (by omega),
            getD_set_ne 0 _ _ _ _ (by omega)]
          exact e3
      · subst heq
        simp only [planarStep]
        refine ⟨?_, ?_, ?_⟩
        · rw [getD_set_ne 0 _ _ _ _ (by omega), getD_set_ne 0 _ _ _ _ (by omega)]
          exact getD_set_self 0 _ _ _ (by rw [hlen]; omega)
        · rw [getD_set_ne 0 _ _ _ _ (by omega)]
          exact getD_set_self 0 _ _ _ (by simp [List.length_set, hlen]; omega)
        · exact getD_set_self 0 _ _ _ (by simp [List.length_set, hlen]; omega)

/-! ### Claims about the output decoder -/

/-- C1 (counterexample): the claim says every tensor whose shape violates
the [1, numOutputs, numDetections] contract decodes to the empty list, but
a tensor malformed only in the batch dimension (shape [2,5,1], first entry
2 instead of 1, data length matching the shape product) is decoded as if
well-formed and yields a detection at threshold 1/2. -/
theorem C1_batch_dim_counterexample :
    (⟨[2, 5, 1], [0, 0, 0, 0, 1, 0, 0, 0, 0, 0]⟩ : Tensor).dims.getD 0 0 ≠ 1
    ∧ processDetections ⟨[2, 5, 1], [0, 0, 0, 0, 1, 0, 0, 0, 0, 0]⟩ (1/2) COCO_CLASSES
        ≠ [] := by
  constructor
  · decide
  · decide

/-- C1 (amended): a tensor whose shape has fewer than 3 dimensions, or
whose numOutputs entry (second shape entry) is below 5, decodes to the
empty detection list at any non-negative threshold, without fault; shapes
that violate the contract only in the batch dimension or in trailing extra
dimensions are decoded as if the contract held. -/
theorem C1_malformed_shape_empty (T : Tensor) (t : ℚ) (table : List String)
    (ht : 0 ≤ t) (hmal : T.dims.length < 3 ∨ T.dims.getD 1 0 < 5) :
    processDetections T t table = [] := by
  obtain ⟨dims, data⟩ := T
  dsimp only at hmal
  have e : processDetections ⟨dims, data⟩ t table
      = (List.range (dims.getD 2 0)).filterMap
          (decodeCandidate data (dims.getD 2 0) (dims.getD 1 0 - 4) t table) := rfl
  rw [e]
  rcases hmal with h3 | h5
  · have hz : dims.getD 2 0 = 0 := getD_default_of_le 0 dims 2 (by omega)
    rw [hz]
    rfl
  · have hnc : dims.getD 1 0 - 4 = 0 := by omega
    rw [hnc]
    refine List.filterMap_eq_nil_iff.mpr (fun i _ => ?_)
    simp only [decodeCandidate]
    rw [if_neg]
    rintro ⟨hgt, -⟩
    rw [classMax_zero] at hgt
    norm_num at hgt
    exact absurd hgt (not_lt.mpr ht)

/-- C1 (witness): the spec's Example 3 shape [1,3,2] with matching data
length and threshold 1/2 decodes to the empty list. -/
theorem C1_malformed_shape_empty_witness :
    ((0:ℚ) ≤ 1/2)
    ∧ ((⟨[1, 3, 2], [0, 0, 0, 0, 0, 0]⟩ : Tensor).dims.length < 3
        ∨ (⟨[1, 3, 2], [0, 0, 0, 0, 0, 0]⟩ : Tensor).dims.getD 1 0 < 5)
    ∧ processDetections ⟨[1, 3, 2], [0, 0, 0, 0, 0, 0]⟩ (1/2) COCO_CLASSES = [] :=
  ⟨by norm_num, by decide,
    C1_malformed_shape_empty ⟨[1, 3, 2], [0, 0, 0, 0, 0, 0]⟩ (1/2) COCO_CLASSES
      (by norm_num) (by decide)⟩

/-- C2 (counterexample): the claim says every returned bbox satisfies
x1 ≤ x2 and y1 ≤ y2 even for negative raw width or height, but the four
corners are clamped independently: at center (64, 64) with raw width and
height -100 (all exactly representable in 32-bit floats) the decoder
returns x1 = 57/64 > x2 = 7/64 and y1 = 57/64 > y2 = 7/64. -/
theorem C2_negative_width_counterexample :
    processDetections ⟨[1, 5, 1], [64, 64, -100, -100, 1]⟩ (1/2) COCO_CLASSES
      = [⟨0, 1, (57/64, 57/64, 7/64, 7/64), "angry"⟩]
    ∧ ¬ ((57:ℚ)/64 ≤ 7/64) := by
  constructor
  · decide
  · decide

/-- C2 (amended): at any non-negative threshold every returned bbox
coordinate lies in [0, 1], and a candidate's corners additionally satisfy
x1 ≤ x2 (resp. y1 ≤ y2) whenever its raw width (resp. height) entry is
non-negative: negative raw sizes can invert the corner order. -/
theorem C2_bbox_clamped (t : ℚ) (ht : 0 ≤ t) :
    (∀ (T : Tensor) (table : List String) (det : Detection),
        det ∈ processDetections T t table →
        0 ≤ det.bbox.1 ∧ det.bbox.1 ≤ 1
        ∧ 0 ≤ det.bbox.2.1 ∧ det.bbox.2.1 ≤ 1
        ∧ 0 ≤ det.bbox.2.2.1 ∧ det.bbox.2.2.1 ≤ 1
        ∧ 0 ≤ det.bbox.2.2.2 ∧ det.bbox.2.2.2 ≤ 1)
    ∧ (∀ (d : List ℚ) (nd nc i : ℕ) (table : List String) (det : Detection),
        decodeCandidate d nd nc t table i = some det →
        (0 ≤ d.getD (2 * nd + i) 0 → det.bbox.1 ≤ det.bbox.2.2.1)
        ∧ (0 ≤ d.getD (3 * nd + i) 0 → det.bbox.2.1 ≤ det.bbox.2.2.2)) := by
  have himg : (0:ℚ) < (IMG_SIZE : ℚ) := by norm_num [IMG_SIZE]
  constructor
  · intro T table det hmem
    obtain ⟨dims, dd⟩ := T
    have e : processDetections ⟨dims, dd⟩ t table
        = (List.range (dims.getD 2 0)).filterMap
            (decodeCandidate dd (dims.getD 2 0) (dims.getD 1 0 - 4) t table) := rfl
    rw [e, List.mem_filterMap] at hmem
    obtain ⟨i, -, hdec⟩ := hmem
    obtain ⟨-, -, -, -, hbb⟩ := decodeCandidate_some_elim _ _ _ _ _ _ _ hdec
    rw [hbb]
    exact ⟨clampCoord_nonneg _, clampCoord_le_one _, clampCoord_nonneg _, clampCoord_le_one _,
      clampCoord_nonneg _, clampCoord_le_one _, clampCoord_nonneg _, clampCoord_le_one _⟩
  · intro d nd nc i table det hdec
    obtain ⟨-, -, -, -, hbb⟩ := decodeCandidate_some_elim _ _ _ _ _ _ _ hdec
    rw [hbb]
    constructor
    · intro hw
      dsimp only
      apply clampCoord_mono
      apply (div_le_div_iff_of_pos_right himg).mpr
      linarith
    · intro hh
      dsimp only
      apply clampCoord_mono
      apply (div_le_div_iff_of_pos_right himg).mpr
      linarith

/-- C2 (witness): at threshold 1/2 the concrete decode of the
counterexample tensor has all bbox coordinates inside [0, 1], and a
candidate with non-negative raw width 100 has x1 ≤ x2. -/
theorem C2_bbox_clamped_witness :
    ((0:ℚ) ≤ 1/2)
    ∧ (0 ≤ (57:ℚ)/64 ∧ (57:ℚ)/64 ≤ 1
        ∧ 0 ≤ (57:ℚ)/64 ∧ (57:ℚ)/64 ≤ 1
        ∧ 0 ≤ (7:ℚ)/64 ∧ (7:ℚ)/64 ≤ 1
        ∧ 0 ≤ (7:ℚ)/64 ∧ (7:ℚ)/64 ≤ 1) :=
  ⟨by norm_num,
    (C2_bbox_clamped (1/2) (by norm_num)).1 ⟨[1, 5, 1], [64, 64, -100, -100, 1]⟩
      COCO_CLASSES ⟨0, 1, (57/64, 57/64, 7/64, 7/64), "angry"⟩ (by decide)⟩

/-- C3: for a well-shaped output tensor (shape [1, numOutputs,
numDetections] with numOutputs ≥ 5), every returned Detection has score
strictly above the threshold, score at most 1, and classId inside
[0, numClasses) for numClasses = numOutputs - 4. -/
theorem C3_detection_bounds (no nd : ℕ) (data : List ℚ) (t : ℚ)
    (table : List String) (det : Detection) (h5 : 5 ≤ no)
    (hmem : det ∈ processDetections ⟨[1, no, nd], data⟩ t table) :
    t < det.score ∧ det.score ≤ 1 ∧ det.classId < no - 4 := by
  have e : processDetections ⟨[1, no, nd], data⟩ t table
      = (List.range nd).filterMap (decodeCandidate data nd (no - 4) t table) := rfl
  rw [e, List.mem_filterMap] at hmem
  obtain ⟨i, -, hdec⟩ := hmem
  obtain ⟨hlt, hsc, hid, -, -⟩ := decodeCandidate_some_elim _ _ _ _ _ _ _ hdec
  refine ⟨hlt, ?_, ?_⟩
  · rw [hsc]
    exact min_le_right _ 1
  · rw [hid]
    exact classMax_snd_lt data nd i (no - 4) (by omega)

/-- C3 (witness): tensor of shape [1,5,1] with single class score 9/10 at
threshold 1/2 yields the detection with score 9/10 and classId 0, which
satisfies all three bounds. -/
theorem C3_detection_bounds_witness :
    ((5:ℕ) ≤ 5)
    ∧ (⟨0, 9/10, (0, 0, 0, 0), "angry"⟩ : Detection)
        ∈ processDetections ⟨[1, 5, 1], [0, 0, 0, 0, 9/10]⟩ (1/2) COCO_CLASSES
    ∧ ((1:ℚ)/2 < 9/10 ∧ (9:ℚ)/10 ≤ 1 ∧ (0:ℕ) < 5 - 4) :=
  ⟨le_refl 5, by decide,
    C3_detection_bounds 5 1 [0, 0, 0, 0, 9/10] (1/2) COCO_CLASSES
      ⟨0, 9/10, (0, 0, 0, 0), "angry"⟩ (le_refl 5) (by decide)⟩

/-- C4 (counterexample): the claim says the per-candidate decode selects
the maximum raw class score with its row index even when all class scores
are negative, but the scan starts from (0, 0): with class scores -5 and
-1 at the column, the maximum raw score is -1 at row 1 while the code
keeps (0, 0), so the selected score equals neither raw score. -/
theorem C4_negative_scores_counterexample :
    classMax [0, 0, 0, 0, -5, -1] 1 0 2 = (0, 0)
    ∧ scoreAt [0, 0, 0, 0, -5, -1] 1 0 0 = -5
    ∧ scoreAt [0, 0, 0, 0, -5, -1] 1 0 1 = -1
    ∧ (classMax [0, 0, 0, 0, -5, -1] 1 0 2).1 ≠ -1
    ∧ (classMax [0, 0, 0, 0, -5, -1] 1 0 2).2 ≠ 1 := by
  refine ⟨by decide, by decide, by decide, by decide, by decide⟩

/-- C4 (amended): the scan tracks the maximum of 0 and the raw class
scores: the winner dominates every class score and is never negative;
whenever some class score is strictly positive the winner is the true
maximum raw score together with its lowest achieving row index; when all
class scores are at most 0 the scan returns (0, 0) instead of the maximum
raw score and its index; the decoder then clamps the winning score into
[0, 1]. -/
theorem C4_winner_take_all (d : List ℚ) (nd i n : ℕ) :
    0 ≤ (classMax d nd i n).1
    ∧ (∀ j < n, scoreAt d nd i j ≤ (classMax d nd i n).1)
    ∧ ((∃ j, j < n ∧ 0 < scoreAt d nd i j) →
        (classMax d nd i n).2 < n
        ∧ scoreAt d nd i (classMax d nd i n).2 = (classMax d nd i n).1
        ∧ ∀ j < (classMax d nd i n).2, scoreAt d nd i j < (classMax d nd i n).1)
    ∧ ((∀ j < n, scoreAt d nd i j ≤ 0) → classMax d nd i n = (0, 0))
    ∧ (∀ (t : ℚ) (table : List String) (det : Detection),
        decodeCandidate d nd n t table i = some det →
        det.score = min (max (classMax d nd i n).1 0) 1) := by
  refine ⟨classMax_fst_nonneg d nd i n, classMax_le d nd i n, ?_,
    classMax_of_nonpos d nd i n, ?_⟩
  · rintro ⟨j, hj, hpos⟩
    have hlt : 0 < (classMax d nd i n).1 :=
      lt_of_lt_of_le hpos (classMax_le d nd i n j hj)
    obtain ⟨h1, h2⟩ := classMax_attain d nd i n hlt
    exact ⟨h1, h2, classMax_earlier_lt d nd i n⟩
  · intro t table det hdec
    exact (decodeCandidate_some_elim _ _ _ _ _ _ _ hdec).2.1

/-- C4 (witness): with class scores 3, 5, 4 at the column, some score is
positive; the scan selects row 1 with score 5, every earlier row scores
strictly less, and the instantiation is concrete. -/
theorem C4_winner_take_all_witness :
    ((1:ℕ) < 3 ∧ (0:ℚ) < scoreAt [0, 0, 0, 0, 3, 5, 4] 1 0 1)
    ∧ ((classMax [0, 0, 0, 0, 3, 5, 4] 1 0 3).2 < 3
        ∧ scoreAt [0, 0, 0, 0, 3, 5, 4] 1 0 (classMax [0, 0, 0, 0, 3, 5, 4] 1 0 3).2
            = (classMax [0, 0, 0, 0, 3, 5, 4] 1 0 3).1
        ∧ ∀ j < (classMax [0, 0, 0, 0, 3, 5, 4] 1 0 3).2,
            scoreAt [0, 0, 0, 0, 3, 5, 4] 1 0 j < (classMax [0, 0, 0, 0, 3, 5, 4] 1 0 3).1) :=
  ⟨⟨by decide, by decide⟩,
    (C4_winner_take_all [0, 0, 0, 0, 3, 5, 4] 1 0 3).2.2.1 ⟨1, by decide⟩⟩

/-- C5: for a fixed output tensor and label table, raising the confidence
threshold never increases the number of returned detections. -/
theorem C5_threshold_monotone (T : Tensor) (table : List String) (t1 t2 : ℚ)
    (h : t1 ≤ t2) :
    (processDetections T t2 table).length ≤ (processDetections T t1 table).length := by
  obtain ⟨dims, data⟩ := T
  have e2 : processDetections ⟨dims, data⟩ t2 table
      = (List.range (dims.getD 2 0)).filterMap
          (decodeCandidate data (dims.getD 2 0) (dims.getD 1 0 - 4) t2 table) := rfl
  have e1 : processDetections ⟨dims, data⟩ t1 table
      = (List.range (dims.getD 2 0)).filterMap
          (decodeCandidate data (dims.getD 2 0) (dims.getD 1 0 - 4) t1 table) := rfl
  rw [e1, e2]
  exact length_filterMap_mono _ _ _
    (fun i _ => decodeCandidate_isSome_mono data _ _ t1 t2 table i h)

/-- C5 (witness): a tensor with two candidates scoring 9/10 and 6/10 has
no more detections at threshold 9/10 than at threshold 1/2. -/
theorem C5_threshold_monotone_witness :
    ((1:ℚ)/2 ≤ 9/10)
    ∧ (processDetections ⟨[1, 5, 2], [0, 0, 0, 0, 0, 0, 0, 0, 9/10, 6/10]⟩ (9/10)
          COCO_CLASSES).length
        ≤ (processDetections ⟨[1, 5, 2], [0, 0, 0, 0, 0, 0, 0, 0, 9/10, 6/10]⟩ (1/2)
          COCO_CLASSES).length :=
  ⟨by norm_num,
    C5_threshold_monotone ⟨[1, 5, 2], [0, 0, 0, 0, 0, 0, 0, 0, 9/10, 6/10]⟩
      COCO_CLASSES (1/2) (9/10) (by norm_num)⟩

/-! ### Claims about the preprocessor and the loop -/

/-- C6: for a resampled interleaved R,G,B,A buffer, the preprocessor
output is channel-planar: entry i is the red byte of pixel i over 255,
entry S*S + i the green byte over 255, and entry 2*S*S + i the blue byte
over 255; the alpha byte at offset i*4 + 3 is never read. -/
theorem C6_planar_layout (S : ℕ) (pixels : List ℕ) (i : ℕ)
    (hlen : pixels.length = 4 * S * S) (hi : i < S * S) :
    (preprocessPixels S pixels).getD i 0 = (pixels.getD (i * 4) 0 : ℚ) / 255
    ∧ (preprocessPixels S pixels).getD (S * S + i) 0
        = (pixels.getD (i * 4 + 1) 0 : ℚ) / 255
    ∧ (preprocessPixels S pixels).getD (2 * S * S + i) 0
        = (pixels.getD (i * 4 + 2) 0 : ℚ) / 255 := by
  have e : preprocessPixels S pixels
      = (List.range (S * S)).foldl (planarStep S pixels)
          (List.replicate (3 * S * S) 0) := rfl
  rw [e]
  exact preprocess_partial_get S pixels (S * S) (le_refl (S * S)) i hi

/-- C6 (witness): a concrete 2-by-2 interleaved buffer is re-laid in
channel-planar order at pixel index 1. -/
theorem C6_planar_layout_witness :
    (([10, 20, 30, 40, 11, 21, 31, 41, 12, 22, 32, 42, 13, 23, 33, 43] : List ℕ).length
        = 4 * 2 * 2 ∧ (1:ℕ) < 2 * 2)
    ∧ ((preprocessPixels 2 [10, 20, 30, 40, 11, 21, 31, 41, 12, 22, 32, 42, 13, 23, 33, 43]).getD 1 0
        = ((11:ℚ)) / 255
      ∧ (preprocessPixels 2 [10, 20, 30, 40, 11, 21, 31, 41, 12, 22, 32, 42, 13, 23, 33, 43]).getD (2 * 2 + 1) 0
        = ((21:ℚ)) / 255
      ∧ (preprocessPixels 2 [10, 20, 30, 40, 11, 21, 31, 41, 12, 22, 32, 42, 13, 23, 33, 43]).getD (2 * (2 * 2) + 1) 0
        = ((31:ℚ)) / 255) :=
  ⟨⟨by decide, by decide⟩,
    C6_planar_layout 2 [10, 20, 30, 40, 11, 21, 31, 41, 12, 22, 32, 42, 13, 23, 33, 43] 1
      (by decide) (by decide)⟩

/-- C7: the preprocessor output length is 3 * IMG_SIZE * IMG_SIZE for
every frame of non-zero resolution (in fact for every resampled buffer,
since the loop only overwrites entries of the pre-allocated buffer). -/
theorem C7_output_length (video : VideoFrame) (hw : 0 < video.width)
    (hh : 0 < video.height) :
    (preprocessImage video).length = 3 * IMG_SIZE * IMG_SIZE := by
  have e : preprocessImage video
      = preprocessPixels IMG_SIZE (resampleToCanvas IMG_SIZE video) := rfl
  rw [e]
  exact preprocessPixels_length IMG_SIZE _

/-- C7 (witness): a concrete 2-by-3 frame preprocesses to the fixed
3 * IMG_SIZE * IMG_SIZE length. -/
theorem C7_output_length_witness :
    (0 < (2:ℕ) ∧ 0 < (3:ℕ))
    ∧ (preprocessImage ⟨2, 3, fun _ _ => (7, 8, 9, 10)⟩).length
        = 3 * IMG_SIZE * IMG_SIZE :=
  ⟨⟨by decide, by decide⟩,
    C7_output_length ⟨2, 3, fun _ _ => (7, 8, 9, 10)⟩ (by decide) (by decide)⟩

/-- C8: a well-shaped all-zero output tensor decodes to zero detections
at every non-negative threshold: the scan's maximum stays 0 and 0 never
strictly exceeds a non-negative threshold. -/
theorem C8_all_zero_empty (no nd : ℕ) (data : List ℚ) (t : ℚ)
    (table : List String) (h5 : 5 ≤ no) (hlen : data.length = no * nd)
    (hz : ∀ x ∈ data, x = 0) (ht : 0 ≤ t) :
    processDetections ⟨[1, no, nd], data⟩ t table = [] := by
  have e : processDetections ⟨[1, no, nd], data⟩ t table
      = (List.range nd).filterMap (decodeCandidate data nd (no - 4) t table) := rfl
  rw [e]
  refine List.filterMap_eq_nil_iff.mpr (fun i _ => ?_)
  simp only [decodeCandidate]
  rw [if_neg]
  rintro ⟨hgt, -⟩
  have hm : classMax data nd i (no - 4) = (0, 0) :=
    classMax_of_nonpos data nd i (no - 4)
      (fun j _ => le_of_eq (getD_zero_of_all_zero data _ hz))
  rw [hm] at hgt
  norm_num at hgt
  exact absurd hgt (not_lt.mpr ht)

/-- C8 (witness): the all-zero tensor of shape [1,5,2] at threshold 0
decodes to the empty list. -/
theorem C8_all_zero_empty_witness :
    ((5:ℕ) ≤ 5 ∧ ([0, 0, 0, 0, 0, 0, 0, 0, 0, 0] : List ℚ).length = 5 * 2
        ∧ (∀ x ∈ ([0, 0, 0, 0, 0, 0, 0, 0, 0, 0] : List ℚ), x = 0) ∧ (0:ℚ) ≤ 0)
    ∧ processDetections ⟨[1, 5, 2], [0, 0, 0, 0, 0, 0, 0, 0, 0, 0]⟩ 0 COCO_CLASSES = [] :=
  ⟨⟨by decide, by decide, by decide, by decide⟩,
    C8_all_zero_empty 5 2 [0, 0, 0, 0, 0, 0, 0, 0, 0, 0] 0 COCO_CLASSES
      (by decide) (by decide) (by decide) (by decide)⟩

lemma foldl_tick_const : ∀ n : ℕ,
    (List.replicate n 1).foldl (fun s k => fpsTick (completeCycles k s)) ⟨0, 1⟩
      = (⟨0, 1⟩ : LoopState) := by
  intro n
  induction n with
  | zero => rfl
  | succ n ih => rw [List.replicate_succ, List.foldl_cons]; exact ih

lemma runTicks_replicate_one (n : ℕ) :
    runTicks (List.replicate (n + 1) 1) = ⟨0, 1⟩ := by
  unfold runTicks
  rw [List.replicate_succ, List.foldl_cons]
  exact foldl_tick_const n

/-- C9 (code evidence): the claim says fps counts completed cycles within
a rolling one-second window, but startDetection passes a period of 1
millisecond to window.setInterval and resets the counter on every tick:
over 1000 consecutive milliseconds with exactly one completed cycle each,
the published fps is 1 (the count since the previous 1 ms tick) while the
one-second window holds 1000 completed cycles. -/
theorem C9_fps_window_mismatch :
    tickPeriodMs = 1
    ∧ tickPeriodMs ≠ 1000
    ∧ (runTicks (List.replicate 1000 1)).fps = 1
    ∧ (List.replicate 1000 1).sum = 1000 := by
  refine ⟨rfl, by decide, ?_, ?_⟩
  · rw [show (1000:ℕ) = 999 + 1 from rfl, runTicks_replicate_one]
  · rw [List.sum_replicate]
    rfl

/-- C10: ties between class rows resolve to the lowest achieving row
index, because only a strictly larger score replaces the running maximum;
and a candidate whose class scores are all at most 0 keeps the initial
pair (0, 0), so it decodes with score 0 and classId 0 and is accepted
only when the threshold is negative. -/
theorem C10_ties_and_nonpositive (d : List ℚ) (nd i n : ℕ) (t : ℚ)
    (table : List String) :
    ((∀ j < n, scoreAt d nd i j ≤ 0) →
        classMax d nd i n = (0, 0)
        ∧ ∀ det, decodeCandidate d nd n t table i = some det →
            det.score = 0 ∧ det.classId = 0 ∧ t < 0)
    ∧ (∀ j < n, 0 < scoreAt d nd i j → scoreAt d nd i j = (classMax d nd i n).1 →
        (classMax d nd i n).2 ≤ j
        ∧ scoreAt d nd i (classMax d nd i n).2 = (classMax d nd i n).1) := by
  constructor
  · intro hz
    have hm := classMax_of_nonpos d nd i n hz
    refine ⟨hm, fun det hdec => ?_⟩
    obtain ⟨hlt, hsc, hid, -, -⟩ := decodeCandidate_some_elim _ _ _ _ _ _ _ hdec
    rw [hm] at hsc hid
    have e0 : min (max ((0:ℚ), (0:ℕ)).1 0) 1 = 0 := by norm_num
    rw [e0] at hsc
    rw [hsc] at hlt
    exact ⟨hsc, hid, hlt⟩
  · intro j hj hpos heq
    have hlt : 0 < (classMax d nd i n).1 := heq ▸ hpos
    obtain ⟨-, h2⟩ := classMax_attain d nd i n hlt
    refine ⟨?_, h2⟩
    by_contra hcon
    exact absurd heq
      (ne_of_lt (classMax_earlier_lt d nd i n j (Nat.lt_of_not_le hcon)))

/-- C10 (witness): with class scores -5 and -1, both non-positive, the
scan returns (0, 0); and with tied positive scores 3 and 3, the scan
selects the lower row index 0. -/
theorem C10_ties_and_nonpositive_witness :
    ((∀ j < 2, scoreAt [0, 0, 0, 0, -5, -1] 1 0 j ≤ 0)
        ∧ classMax [0, 0, 0, 0, -5, -1] 1 0 2 = (0, 0))
    ∧ ((1:ℕ) < 2 ∧ (0:ℚ) < scoreAt [0, 0, 0, 0, 3, 3] 1 0 1
        ∧ scoreAt [0, 0, 0, 0, 3, 3] 1 0 1 = (classMax [0, 0, 0, 0, 3, 3] 1 0 2).1
        ∧ (classMax [0, 0, 0, 0, 3, 3] 1 0 2).2 ≤ 1
        ∧ scoreAt [0, 0, 0, 0, 3, 3] 1 0 (classMax [0, 0, 0, 0, 3, 3] 1 0 2).2
            = (classMax [0, 0, 0, 0, 3, 3] 1 0 2).1) :=
  ⟨⟨by decide,
      ((C10_ties_and_nonpositive [0, 0, 0, 0, -5, -1] 1 0 2 0 COCO_CLASSES).1
        (by decide)).1⟩,
    ⟨by decide, by decide, by decide,
      ((C10_ties_and_nonpositive [0, 0, 0, 0, 3, 3] 1 0 2 0 COCO_CLASSES).2 1
        (by decide) (by decide) (by decide)).1,
      ((C10_ties_and_nonpositive [0, 0, 0, 0, 3, 3] 1 0 2 0 COCO_CLASSES).2 1
        (by decide) (by decide) (by decide)).2⟩⟩
